import Mathlib

/-!
Verification of the real-time audio spectrum visualizer (`src/main.py`).

The development shallowly embeds the program's core pipeline:

* the audio callback `AudioStream._audio_callback` (FFT magnitudes, noise
  gate, non-blocking queue push),
* the bounded frame queue `queue.Queue(maxsize=100)` (`put_nowait` /
  `get_nowait`),
* the bar mapper `SpectrumVisualizer.update_bars` (per-frame min-max
  rescaling to pixel heights, `TclError` containment),
* the lifecycle operations `AudioStream.stop`, `Application.stop`,
  `Application.process_queue`, together with the running/stopped flags.

Float values are embedded as elements of a linear ordered field (the pure
numeric components are stated polymorphically so that witnesses can be
evaluated over `ℚ`, while the FFT itself necessarily lives over `ℝ`/`ℂ`).
Python exceptions are embedded as `Except` values: a `raise` is an
`Except.error`, and a `try/except` clause is a `match` that turns the caught
constructor back into `Except.ok`.
-/

namespace Spectrum

/-- Configuration constant `SAMPLE_RATE = 44100` from `src/main.py`. -/
def SAMPLE_RATE : ℕ := 44100

/-- Configuration constant `WINDOW_SIZE = 1024` from `src/main.py`. -/
def WINDOW_SIZE : ℕ := 1024

/-- Configuration constant `NUM_BARS = 60` from `src/main.py`. -/
def NUM_BARS : ℕ := 60

/-- Configuration constant `NOISE_THRESHOLD = 0.05` from `src/main.py`,
embedded exactly as the rational `1/20`. -/
def NOISE_THRESHOLD {α : Type} [LinearOrderedField α] : α := 1 / 20

/-- Queue capacity: `queue.Queue(maxsize=100)` in `Application.__init__`. -/
def QUEUE_CAPACITY : ℕ := 100

/-- The Python exceptions that the modelled code can raise or catch:
`queue.Full` (from `put_nowait`), `tkinter.TclError` (from `canvas.coords`
after teardown), and a catch-all for any other exception. -/
inductive PyExc where
  | queueFull
  | tclError
  | otherExc
deriving DecidableEq

/-- Noise gate applied pointwise by the audio callback:
`np.where(fft_data > NOISE_THRESHOLD, fft_data, 0)` (line 104). -/
def noiseGateVal {α : Type} [LinearOrderedField α] (m : α) : α :=
  if NOISE_THRESHOLD < m then m else 0

/-- Test `np.all(spectrum == 0)` from `update_bars` (line 58). -/
def allZero {α : Type} [LinearOrderedField α] (s : List α) : Bool :=
  s.all (fun v => decide (v = 0))

/-! ### Bounded queue (`queue.Queue(maxsize=100)`)

`put_nowait` appends on the right when occupancy is below capacity and
raises `queue.Full` otherwise; `get_nowait` pops from the left. -/

/-- Result of `put_nowait` viewed as a total function: the new queue
contents together with a success flag (`false` = `queue.Full` was raised
and the incoming frame discarded). -/
def tryPush {α : Type} (cap : ℕ) (q : List α) (x : α) : List α × Bool :=
  if q.length < cap then (q ++ [x], true) else (q, false)

/-- `put_nowait` with the `queue.Full` exception made explicit. -/
def putNowaitE {α : Type} (cap : ℕ) (q : List α) (x : α) : Except PyExc (List α) :=
  if q.length < cap then Except.ok (q ++ [x]) else Except.error PyExc.queueFull

/-- Push a whole list of frames in order, counting how many pushes failed
(were dropped because the queue was full). -/
def pushAll {α : Type} (cap : ℕ) : List α → List α → List α × ℕ
  | q, [] => (q, 0)
  | q, x :: xs =>
    let r := tryPush cap q x
    let rest := pushAll cap r.1 xs
    (rest.1, rest.2 + (if r.2 then 0 else 1))

/-- `get_nowait`: pops the front element, raising `queue.Empty`
(modelled as `Except.error ()`) on an empty queue. -/
def getNowait {α : Type} (q : List α) : Except Unit (α × List α) :=
  match q with
  | [] => Except.error ()
  | x :: xs => Except.ok (x, xs)

/-- Drain the queue by repeated `get_nowait` until empty, collecting the
frames in the order they are returned. -/
def drainAll {α : Type} : List α → List α
  | [] => []
  | x :: xs => x :: drainAll xs

/-! ### Bar mapper (`SpectrumVisualizer.update_bars`, lines 51-77) -/

/-- Python's `max` over a list (`max(spectrum)` on line 67).  The `[]` case
returns `0`; the source only evaluates `max` on a frame that is not
all-zero, hence nonempty. -/
def pyListMax {α : Type} [LinearOrderedField α] : List α → α
  | [] => 0
  | x :: xs => xs.foldl max x

/-- Value of `np.interp(v, (0, M), (0, H))` (line 67): clamp-below at the
left endpoint, clamp-above at the right endpoint, linear in between. -/
def npInterpTwoPoint {α : Type} [LinearOrderedField α] (M H v : α) : α :=
  if v ≤ 0 then 0
  else if M ≤ v then H
  else v * H / M

/-- Value of `np.clip(v, lo, hi)` (line 68). -/
def npClip {α : Type} [LinearOrderedField α] (lo hi v : α) : α :=
  min hi (max lo v)

/-- Bar heights drawn by `update_bars`: on an all-zero frame every bar is
collapsed to height 0 (`coords(bar, 0, 0, 0, 0)`, lines 58-64); otherwise
each value is rescaled by `np.interp` against the frame's own peak and
clipped to `[0, 400]` (lines 66-74; the drawn height of bar `i` is the
rescaled `spectrum[i]`, since the rectangle spans from
`400 - spectrum[i]` down to `400`).  Frames produced by the pipeline
always have exactly `NUM_BARS` entries. -/
def updateBarsHeights {α : Type} [LinearOrderedField α] (s : List α) : List α :=
  if allZero s then List.replicate NUM_BARS 0
  else s.map (fun v => npClip 0 400 (npInterpTwoPoint (pyListMax s) 400 v))

/-- Visualizer state: the `is_running` flag of `SpectrumVisualizer`. -/
structure VisState where
  is_running : Bool
deriving DecidableEq

/-- Result of `canvas.coords`: raises `TclError` when the display surface
has been torn down (`canvasOk = false`). -/
def coordsE (canvasOk : Bool) : Except PyExc Unit :=
  if canvasOk then Except.ok () else Except.error PyExc.tclError

/-- State-and-log effect of `update_bars` with the exception flow made
explicit.  Returns the new visualizer state and the list of log lines the
call printed (the function contains no `print`, so the log is always
empty).  In the all-zero branch a `TclError` is caught and the method just
returns (lines 60-63); in the drawing branch a `TclError` is caught and
`is_running` is set to `False` (lines 75-77).  Any other exception would
propagate. -/
def updateBarsE {α : Type} [LinearOrderedField α] (st : VisState) (canvasOk : Bool)
    (spectrum : List α) : Except PyExc (VisState × List String) :=
  if st.is_running = false then Except.ok (st, [])
  else if allZero spectrum then
    match coordsE canvasOk with
    | Except.ok _ => Except.ok (st, [])
    | Except.error PyExc.tclError => Except.ok (st, [])
    | Except.error e => Except.error e
  else
    match coordsE canvasOk with
    | Except.ok _ => Except.ok (st, [])
    | Except.error PyExc.tclError => Except.ok (⟨false⟩, [])
    | Except.error e => Except.error e

/-- Pure state effect of `update_bars` on the `is_running` flag (the
exception-free projection of `updateBarsE`). -/
def updateBarsState {α : Type} [LinearOrderedField α] (st : VisState) (canvasOk : Bool)
    (spectrum : List α) : VisState :=
  if st.is_running = false then st
  else if allZero spectrum then st
  else if canvasOk then st else ⟨false⟩

/-! ### Spectrum transform (`AudioStream._audio_callback`, lines 102-104)

`np.fft.rfft(a, n)` computes `A_k = sum_{j=0}^{n-1} a_j * exp(-2*pi*i*j*k/n)`
for `k = 0 .. n/2`, zero-padding (or truncating) `a` to length `n`;
out-of-range indices of the sample list therefore contribute `0`. -/

/-- Bin `k` of `np.fft.rfft(x, n)`. -/
noncomputable def rfftBin (x : List ℝ) (n k : ℕ) : ℂ :=
  Finset.sum (Finset.range n) (fun j =>
    ((x.getD j 0 : ℝ) : ℂ) *
      Complex.exp (-(2 * (Real.pi : ℂ) * Complex.I * (k : ℂ) * (j : ℂ)) / (n : ℂ)))

/-- Line 102: `np.abs(np.fft.rfft(indata[:, 0], n=WINDOW_SIZE))` — the
`WINDOW_SIZE/2 + 1` magnitudes of the real FFT of the channel-0 samples. -/
noncomputable def rfftMags (x : List ℝ) : List ℝ :=
  (List.range (WINDOW_SIZE / 2 + 1)).map (fun k => Complex.abs (rfftBin x WINDOW_SIZE k))

/-- Lines 102-104: the SpectrumFrame pushed by the audio callback —
FFT magnitudes, sliced to the first `NUM_BARS` bins, noise-gated. -/
noncomputable def audioCallbackSpectrum (x : List ℝ) : List ℝ :=
  ((rfftMags x).take NUM_BARS).map noiseGateVal

/-! ### Audio stream lifecycle (`AudioStream`, lines 83-117) -/

/-- Observable state of the underlying `sounddevice` stream object. -/
structure StreamSt where
  active : Bool
  closed : Bool
deriving DecidableEq

/-- Lifecycle state of an `AudioStream` instance: the optional stream
object (`None` until `start()` is called) and its `is_running` flag. -/
structure AudioLife where
  stream : Option StreamSt
  is_running : Bool
deriving DecidableEq

/-- `AudioStream.stop` (lines 109-117), failure-free path: clear
`is_running`; if a stream exists, stop it when active and close it. -/
def audioStop (st : AudioLife) : AudioLife :=
  { stream := st.stream.map (fun _ => { active := false, closed := true })
    is_running := false }

/-- `AudioStream.stop` with the exception flow made explicit: the
`stop`/`close` calls sit in a `try` whose `except Exception` clause prints
`"Error closing stream: ..."` instead of re-raising.  `closeFails`
says whether `close()` raises. -/
def audioStopE (closeFails : Bool) (st : AudioLife) : Except PyExc (AudioLife × List String) :=
  match st.stream with
  | none => Except.ok ({ stream := none, is_running := false }, [])
  | some s =>
    let s1 := if s.active then { s with active := false } else s
    if closeFails then
      Except.ok ({ stream := some s1, is_running := false }, ["Error closing stream"])
    else
      Except.ok ({ stream := some { s1 with closed := true }, is_running := false }, [])

/-- Concrete started session (active, not yet closed stream), used to
witness the stop-idempotence claim. -/
def startedAudioLife : AudioLife :=
  { stream := some { active := true, closed := false }, is_running := true }

/-- Whether the session's stream is closed (vacuously true when no stream
was ever opened). -/
def streamClosedB (st : AudioLife) : Bool :=
  match st.stream with
  | none => true
  | some s => s.closed

/-! ### Whole-program state and its operations -/

/-- Joint state of the application: the three `is_running` flags
(`Application`, `SpectrumVisualizer`, `AudioStream`), the stream object,
and the shared `data_queue` of spectrum frames. -/
structure ProgState where
  app_running : Bool
  vis_running : Bool
  audio_running : Bool
  stream : Option StreamSt
  queue : List (List ℝ)

/-- `AudioStream._audio_callback` (lines 97-107) as a pure state
transition: return immediately when stopped; otherwise compute the gated
spectrum and `put_nowait` it, with `queue.Full` silently dropping the
frame. -/
noncomputable def audioCallbackTrans (st : ProgState) (samples : List ℝ) : ProgState :=
  if st.audio_running = false then st
  else if st.queue.length < QUEUE_CAPACITY then
    { st with queue := st.queue ++ [audioCallbackSpectrum samples] }
  else st

/-- `AudioStream._audio_callback` with the exception flow made explicit:
the `try` body raises only `queue.Full` (from `put_nowait`), and the
`except queue.Full: pass` clause catches exactly that constructor; any
other exception would propagate out of the callback. -/
noncomputable def audioCallbackE (st : ProgState) (samples : List ℝ) : Except PyExc ProgState :=
  if st.audio_running = false then Except.ok st
  else
    match putNowaitE QUEUE_CAPACITY st.queue (audioCallbackSpectrum samples) with
    | Except.ok q => Except.ok { st with queue := q }
    | Except.error PyExc.queueFull => Except.ok st
    | Except.error e => Except.error e

/-- Visualizer flag after the `process_queue` drain loop (lines 142-144)
has applied `update_bars` to each queued frame in FIFO order. -/
def drainLoopVis {α : Type} [LinearOrderedField α] (canvasOk : Bool) :
    Bool → List (List α) → Bool
  | vis, [] => vis
  | vis, f :: rest =>
    drainLoopVis canvasOk (updateBarsState ⟨vis⟩ canvasOk f).is_running rest

/-- `Application.process_queue` (lines 137-151) as a state transition:
return immediately when the application is stopped; otherwise pop every
queued frame (the loop guard `self.is_running` never changes during the
loop, which only touches the visualizer flag) and feed it to
`update_bars`. -/
noncomputable def processQueueTrans (st : ProgState) (canvasOk : Bool) : ProgState :=
  if st.app_running = false then st
  else { st with
          vis_running := drainLoopVis canvasOk st.vis_running st.queue
          queue := [] }

/-- `Application.stop` (lines 153-157): clear the application flag, stop
the visualizer, stop the audio stream (closing its stream object). -/
def appStopTrans (st : ProgState) : ProgState :=
  let a := audioStop { stream := st.stream, is_running := st.audio_running }
  { app_running := false
    vis_running := false
    audio_running := a.is_running
    stream := a.stream
    queue := st.queue }

/-- The operations the program performs on the shared state:
`AudioStream.start`, an audio-callback invocation carrying that buffer's
channel-0 samples, a `process_queue` tick carrying whether the canvas is
still alive, and `Application.stop`. -/
inductive Op where
  | start
  | callback (samples : List ℝ)
  | tick (canvasOk : Bool)
  | stop

/-- Small-step semantics of the program's operations. -/
noncomputable def step : Op → ProgState → ProgState
  | Op.start, st => { st with stream := some { active := true, closed := false } }
  | Op.callback s, st => audioCallbackTrans st s
  | Op.tick ok, st => processQueueTrans st ok
  | Op.stop, st => appStopTrans st

/-- State after `Application.__init__` (lines 121-126): every flag
starts `True`, the queue is empty, no stream is opened yet. -/
def initState : ProgState :=
  { app_running := true
    vis_running := true
    audio_running := true
    stream := none
    queue := [] }

/-- Concrete stopped state, used to witness the stopped-callback claim. -/
def stoppedProgState : ProgState :=
  { app_running := false
    vis_running := false
    audio_running := false
    stream := none
    queue := [] }

/-- Concrete running state whose queue already holds `QUEUE_CAPACITY`
frames, used to witness the frame-drop claim. -/
def fullQueueState : ProgState :=
  { app_running := true
    vis_running := true
    audio_running := true
    stream := some { active := true, closed := false }
    queue := List.replicate QUEUE_CAPACITY [] }

/-! ### Helper lemmas -/

theorem getD_map_of_map_zero {α : Type} [Zero α] {f : α → α} (hf : f 0 = 0) :
    ∀ (l : List α) (i : ℕ), (l.map f).getD i 0 = f (l.getD i 0)
  | [], i => by simp [hf]
  | a :: t, 0 => by simp
  | a :: t, i + 1 => by
    simpa using getD_map_of_map_zero hf t i

theorem getD_eq_zero_of_forall_zero {α : Type} [Zero α] :
    ∀ (l : List α), (∀ v ∈ l, v = 0) → ∀ i, l.getD i 0 = 0
  | [], _, i => by simp
  | a :: t, h, 0 => by simpa using h a (by simp)
  | a :: t, h, i + 1 => by
    simpa using getD_eq_zero_of_forall_zero t (fun v hv => h v (by simp [hv])) i

theorem getD_take_of_lt {α : Type} [Zero α] :
    ∀ (n : ℕ) (l : List α) (i : ℕ), i < n → (l.take n).getD i 0 = l.getD i 0
  | 0, _, _, h => by omega
  | n + 1, [], i, _ => by simp
  | n + 1, a :: t, 0, _ => by simp
  | n + 1, a :: t, i + 1, h => by
    simpa using getD_take_of_lt n t i (by omega)

theorem allZero_iff {α : Type} [LinearOrderedField α] (s : List α) :
    allZero s = true ↔ ∀ v ∈ s, v = 0 := by
  simp [allZero, List.all_eq_true]

theorem allZero_eq_false_iff {α : Type} [LinearOrderedField α] (s : List α) :
    allZero s = false ↔ ∃ v ∈ s, v ≠ 0 := by
  rw [← Bool.not_eq_true, allZero_iff]
  push_neg
  rfl

theorem le_foldl_max {α : Type} [LinearOrder α] :
    ∀ (xs : List α) (a : α), a ≤ xs.foldl max a
  | [], a => le_refl a
  | x :: xs, a => le_trans (le_max_left a x) (le_foldl_max xs (max a x))

theorem mem_le_foldl_max {α : Type} [LinearOrder α] :
    ∀ (xs : List α) (a : α), ∀ v ∈ xs, v ≤ xs.foldl max a
  | x :: xs, a, v, hv => by
    rcases List.mem_cons.1 hv with h | h
    · subst h
      exact le_trans (le_max_right a v) (le_foldl_max xs (max a v))
    · exact mem_le_foldl_max xs (max a x) v h

theorem foldl_max_mem {α : Type} [LinearOrder α] :
    ∀ (xs : List α) (a : α), xs.foldl max a = a ∨ xs.foldl max a ∈ xs
  | [], a => Or.inl rfl
  | x :: xs, a => by
    rcases foldl_max_mem xs (max a x) with h | h
    · rcases max_choice a x with hm | hm
      · exact Or.inl (by simpa [hm] using h)
      · refine Or.inr ?_
        rw [List.foldl_cons, h, hm]
        exact List.mem_cons_self x xs
    · exact Or.inr (List.mem_cons_of_mem x h)

theorem pyListMax_mem {α : Type} [LinearOrderedField α] :
    ∀ (s : List α), s ≠ [] → pyListMax s ∈ s
  | [], h => absurd rfl h
  | x :: xs, _ => by
    rcases foldl_max_mem xs x with h | h
    · simp [pyListMax, h]
    · exact List.mem_cons_of_mem x (by simpa [pyListMax] using h)

theorem le_pyListMax {α : Type} [LinearOrderedField α] (s : List α) (v : α) (hv : v ∈ s) :
    v ≤ pyListMax s := by
  match s, hv with
  | x :: xs, hv =>
    rcases List.mem_cons.1 hv with h | h
    · subst h
      exact le_foldl_max xs v
    · exact mem_le_foldl_max xs x v h

theorem updateBarsState_mono {α : Type} [LinearOrderedField α]
    (v canvasOk : Bool) (f : List α) :
    (updateBarsState ⟨v⟩ canvasOk f).is_running = true → v = true := by
  cases v
  · intro h
    rw [updateBarsState, if_pos rfl] at h
    exact h
  · intro _
    rfl

theorem drainLoopVis_mono {α : Type} [LinearOrderedField α] (canvasOk : Bool) :
    ∀ (l : List (List α)) (v : Bool), drainLoopVis canvasOk v l = true → v = true
  | [], v, h => h
  | f :: rest, v, h => by
    have h1 := drainLoopVis_mono canvasOk rest
      (updateBarsState ⟨v⟩ canvasOk f).is_running (by simpa [drainLoopVis] using h)
    exact updateBarsState_mono v canvasOk f h1

theorem pushAll_spec {α : Type} (cap : ℕ) :
    ∀ (xs : List α) (q : List α), q.length ≤ cap →
      (pushAll cap q xs).1 = q ++ xs.take (cap - q.length)
      ∧ (pushAll cap q xs).2 = xs.length - (cap - q.length)
  | [], q, _ => by simp [pushAll]
  | x :: xs, q, hq => by
    by_cases hlt : q.length < cap
    · have hrec := pushAll_spec cap xs (q ++ [x]) (by simp; omega)
      have hcap : cap - q.length = (cap - (q.length + 1)) + 1 := by omega
      constructor
      · rw [show (pushAll cap q (x :: xs)).1 = (pushAll cap (q ++ [x]) xs).1 by
            simp [pushAll, tryPush, hlt]]
        rw [hrec.1, hcap, List.take_succ_cons]
        simp
      · rw [show (pushAll cap q (x :: xs)).2 = (pushAll cap (q ++ [x]) xs).2 by
            simp [pushAll, tryPush, hlt]]
        rw [hrec.2]
        simp only [List.length_append, List.length_cons, List.length_nil]
        omega
    · have hrec := pushAll_spec cap xs q hq
      have hcap : cap - q.length = 0 := by omega
      constructor
      · rw [show (pushAll cap q (x :: xs)).1 = (pushAll cap q xs).1 by
            simp [pushAll, tryPush, hlt]]
        rw [hrec.1, hcap]
        simp
      · rw [show (pushAll cap q (x :: xs)).2 = (pushAll cap q xs).2 + 1 by
            simp [pushAll, tryPush, hlt]]
        rw [hrec.2, hcap]
        simp only [Nat.sub_zero, List.length_cons]

theorem drainAll_eq {α : Type} : ∀ (q : List α), drainAll q = q
  | [] => rfl
  | x :: xs => by simp [drainAll, drainAll_eq xs]

/-! ### Claim theorems -/

/-- C1: every magnitude in the SpectrumFrame produced by the transform
stage is either exactly 0 or strictly above `NOISE_THRESHOLD` (0.05): a
raw FFT magnitude at or below the threshold is replaced with exactly 0,
and a magnitude strictly above the threshold passes through unchanged. -/
theorem c1_noise_gate (x : List ℝ) (i : ℕ) (_hi : i < NUM_BARS) :
    ((audioCallbackSpectrum x).getD i 0 = 0
      ∨ NOISE_THRESHOLD < (audioCallbackSpectrum x).getD i 0)
    ∧ (NOISE_THRESHOLD < ((rfftMags x).take NUM_BARS).getD i 0 →
        (audioCallbackSpectrum x).getD i 0 = ((rfftMags x).take NUM_BARS).getD i 0)
    ∧ (((rfftMags x).take NUM_BARS).getD i 0 ≤ NOISE_THRESHOLD →
        (audioCallbackSpectrum x).getD i 0 = 0) := by
  have hzero : noiseGateVal (0 : ℝ) = 0 := by
    rw [noiseGateVal, if_neg]
    rw [NOISE_THRESHOLD]
    norm_num
  have hg : (audioCallbackSpectrum x).getD i 0
      = noiseGateVal (((rfftMags x).take NUM_BARS).getD i 0) :=
    getD_map_of_map_zero hzero ((rfftMags x).take NUM_BARS) i
  by_cases hm : NOISE_THRESHOLD < ((rfftMags x).take NUM_BARS).getD i 0
  · refine ⟨Or.inr ?_, fun _ => ?_, fun hle => absurd hm (not_lt.2 hle)⟩
    · rw [hg, noiseGateVal, if_pos hm]
      exact hm
    · rw [hg, noiseGateVal, if_pos hm]
  · refine ⟨Or.inl ?_, fun hlt => absurd hlt hm, fun _ => ?_⟩
    · rw [hg, noiseGateVal, if_neg hm]
    · rw [hg, noiseGateVal, if_neg hm]

/-- Witness for C1 at the concrete input `x = []`, `i = 0`. -/
theorem c1_noise_gate_witness :
    0 < NUM_BARS ∧
    (((audioCallbackSpectrum []).getD 0 0 = 0
        ∨ NOISE_THRESHOLD < (audioCallbackSpectrum []).getD 0 0)
      ∧ (NOISE_THRESHOLD < ((rfftMags []).take NUM_BARS).getD 0 0 →
          (audioCallbackSpectrum []).getD 0 0 = ((rfftMags []).take NUM_BARS).getD 0 0)
      ∧ (((rfftMags []).take NUM_BARS).getD 0 0 ≤ NOISE_THRESHOLD →
          (audioCallbackSpectrum []).getD 0 0 = 0)) :=
  ⟨by decide, c1_noise_gate [] 0 (by decide)⟩

/-- C2: pushing `QUEUE_CAPACITY + 1` frames into the empty queue without
draining retains exactly the first `QUEUE_CAPACITY` frames (drop-newest:
the incoming frame is the one discarded once full), exactly 1 push fails,
a push onto a full queue returns failure with the queue unchanged, and
draining returns the retained frames in original push (FIFO) order. -/
theorem c2_bounded_queue {α : Type} (xs : List α) (h : xs.length = QUEUE_CAPACITY + 1) :
    (pushAll QUEUE_CAPACITY [] xs).1 = xs.take QUEUE_CAPACITY
    ∧ (pushAll QUEUE_CAPACITY [] xs).1.length = QUEUE_CAPACITY
    ∧ (pushAll QUEUE_CAPACITY [] xs).2 = 1
    ∧ drainAll (pushAll QUEUE_CAPACITY [] xs).1 = xs.take QUEUE_CAPACITY
    ∧ (∀ (q : List α) (y : α), q.length = QUEUE_CAPACITY →
        tryPush QUEUE_CAPACITY q y = (q, false)) := by
  have hs := pushAll_spec QUEUE_CAPACITY xs [] (by simp)
  have h1 : (pushAll QUEUE_CAPACITY [] xs).1 = xs.take QUEUE_CAPACITY := by
    rw [hs.1]
    simp
  refine ⟨h1, ?_, ?_, ?_, ?_⟩
  · rw [h1, List.length_take, h]
    simp
  · rw [hs.2, h]
    simp
  · rw [h1, drainAll_eq]
  · intro q y hq
    rw [tryPush, if_neg]
    rw [hq]
    exact lt_irrefl QUEUE_CAPACITY

/-- Witness for C2 at the concrete input `xs = List.range 101` (over ℕ). -/
theorem c2_bounded_queue_witness :
    (List.range (QUEUE_CAPACITY + 1)).length = QUEUE_CAPACITY + 1 ∧
    ((pushAll QUEUE_CAPACITY [] (List.range (QUEUE_CAPACITY + 1))).1
        = (List.range (QUEUE_CAPACITY + 1)).take QUEUE_CAPACITY
      ∧ (pushAll QUEUE_CAPACITY [] (List.range (QUEUE_CAPACITY + 1))).1.length = QUEUE_CAPACITY
      ∧ (pushAll QUEUE_CAPACITY [] (List.range (QUEUE_CAPACITY + 1))).2 = 1
      ∧ drainAll (pushAll QUEUE_CAPACITY [] (List.range (QUEUE_CAPACITY + 1))).1
          = (List.range (QUEUE_CAPACITY + 1)).take QUEUE_CAPACITY
      ∧ (∀ (q : List ℕ) (y : ℕ), q.length = QUEUE_CAPACITY →
          tryPush QUEUE_CAPACITY q y = (q, false))) :=
  ⟨by simp, c2_bounded_queue (List.range (QUEUE_CAPACITY + 1)) (by simp)⟩

/-- C4: an all-zero input SampleFrame of length `WINDOW_SIZE` is
transformed into the all-zero SpectrumFrame. -/
theorem c4_zero_input (x : List ℝ) (_hlen : x.length = WINDOW_SIZE)
    (hz : ∀ v ∈ x, v = 0) :
    audioCallbackSpectrum x = List.replicate NUM_BARS 0 := by
  have hbin : ∀ k, rfftBin x WINDOW_SIZE k = 0 := by
    intro k
    apply Finset.sum_eq_zero
    intro j _
    rw [getD_eq_zero_of_forall_zero x hz j]
    simp
  have hmags : ∀ b ∈ rfftMags x, b = 0 := by
    intro b hb
    rcases List.mem_map.1 hb with ⟨k, _, rfl⟩
    rw [hbin k]
    simp
  rw [List.eq_replicate_iff]
  constructor
  · simp [audioCallbackSpectrum, rfftMags, NUM_BARS, WINDOW_SIZE]
  · intro b hb
    rcases List.mem_map.1 hb with ⟨m, hm, rfl⟩
    have hm0 : m = 0 := hmags m (List.mem_of_mem_take hm)
    rw [hm0, noiseGateVal, if_neg]
    rw [NOISE_THRESHOLD]
    norm_num

/-- Witness for C4 at the concrete input `x = List.replicate 1024 0`. -/
theorem c4_zero_input_witness :
    (List.replicate WINDOW_SIZE (0 : ℝ)).length = WINDOW_SIZE
    ∧ (∀ v ∈ List.replicate WINDOW_SIZE (0 : ℝ), v = 0)
    ∧ audioCallbackSpectrum (List.replicate WINDOW_SIZE 0) = List.replicate NUM_BARS 0 :=
  ⟨by simp, fun v hv => List.eq_of_mem_replicate hv,
    c4_zero_input (List.replicate WINDOW_SIZE 0) (by simp)
      (fun v hv => List.eq_of_mem_replicate hv)⟩

/-- C10: whatever the length of the sample buffer delivered to the audio
callback, the produced spectrum frame has exactly `NUM_BARS` entries, and
the frame depends only on the first `WINDOW_SIZE` samples (the FFT with
fixed transform length `n = WINDOW_SIZE` zero-pads or truncates its
input); the spec's length-`W` precondition is not needed for a
well-formed output. -/
theorem c10_output_shape (x : List ℝ) :
    (audioCallbackSpectrum x).length = NUM_BARS
    ∧ audioCallbackSpectrum x = audioCallbackSpectrum (x.take WINDOW_SIZE) := by
  constructor
  · simp [audioCallbackSpectrum, rfftMags, NUM_BARS, WINDOW_SIZE]
  · have hmags : rfftMags (x.take WINDOW_SIZE) = rfftMags x := by
      rw [rfftMags, rfftMags]
      apply List.map_congr_left
      intro k _
      have hb : rfftBin (x.take WINDOW_SIZE) WINDOW_SIZE k = rfftBin x WINDOW_SIZE k := by
        rw [rfftBin, rfftBin]
        apply Finset.sum_congr rfl
        intro j hj
        rw [getD_take_of_lt WINDOW_SIZE x j (Finset.mem_range.1 hj)]
      rw [hb]
    rw [audioCallbackSpectrum, audioCallbackSpectrum, hmags]

/-- C3: on a SpectrumFrame with nonnegative entries that is not all-zero,
`update_bars` rescales linearly from `[0, max(frame)]` to `[0, 400]` and
clamps to `[0, 400]`, so the heights are exactly `v * 400 / max(frame)`,
the frame's peak maps to exactly 400, and every height lies in
`[0, 400]`; on an all-zero frame every bar height is 0. -/
theorem c3_bar_mapper {α : Type} [LinearOrderedField α] (s : List α)
    (hnn : ∀ v ∈ s, 0 ≤ v) :
    (allZero s = true → updateBarsHeights s = List.replicate NUM_BARS 0)
    ∧ (allZero s = false →
        updateBarsHeights s = s.map (fun v => v * 400 / pyListMax s)
        ∧ (400 : α) ∈ updateBarsHeights s
        ∧ ∀ z ∈ updateBarsHeights s, 0 ≤ z ∧ z ≤ 400) := by
  constructor
  · intro h
    rw [updateBarsHeights, if_pos h]
  · intro h
    rcases (allZero_eq_false_iff s).1 h with ⟨v0, hv0m, hv0ne⟩
    have hv0pos : 0 < v0 := lt_of_le_of_ne (hnn v0 hv0m) (Ne.symm hv0ne)
    have hM : 0 < pyListMax s := lt_of_lt_of_le hv0pos (le_pyListMax s v0 hv0m)
    have key : ∀ w ∈ s,
        npClip 0 400 (npInterpTwoPoint (pyListMax s) 400 w) = w * 400 / pyListMax s := by
      intro w hw
      have h0w : 0 ≤ w := hnn w hw
      have hwM : w ≤ pyListMax s := le_pyListMax s w hw
      by_cases hw0 : w ≤ 0
      · have hweq : w = 0 := le_antisymm hw0 h0w
        subst hweq
        rw [npInterpTwoPoint, if_pos le_rfl, npClip]
        rw [zero_mul, zero_div]
        rw [max_self, min_eq_right]
        norm_num
      · by_cases hMw : pyListMax s ≤ w
        · have hweq : w = pyListMax s := le_antisymm hwM hMw
          rw [npInterpTwoPoint, if_neg hw0, if_pos hMw, npClip]
          rw [hweq, mul_comm (pyListMax s) 400, mul_div_assoc,
            div_self (ne_of_gt hM), mul_one]
          rw [max_eq_right (by norm_num : (0 : α) ≤ 400), min_self]
        · have hwlt : w < pyListMax s := lt_of_le_of_ne hwM (fun he => hMw (le_of_eq he.symm))
          rw [npInterpTwoPoint, if_neg hw0, if_neg hMw, npClip]
          have hz0 : 0 ≤ w * 400 / pyListMax s :=
            div_nonneg (mul_nonneg h0w (by norm_num)) (le_of_lt hM)
          have hz4 : w * 400 / pyListMax s ≤ 400 := by
            rw [div_le_iff₀ hM]
            calc w * 400 ≤ pyListMax s * 400 :=
                  mul_le_mul_of_nonneg_right hwM (by norm_num)
              _ = 400 * pyListMax s := mul_comm _ _
          rw [max_eq_right hz0, min_eq_right hz4]
    have hmap : updateBarsHeights s = s.map (fun v => v * 400 / pyListMax s) := by
      rw [updateBarsHeights, if_neg (by rw [h]; exact Bool.false_ne_true)]
      exact List.map_congr_left key
    refine ⟨hmap, ?_, ?_⟩
    · have hsne : s ≠ [] := by
        intro he
        rw [he] at hv0m
        exact (List.not_mem_nil v0) hv0m
      have hMm : pyListMax s ∈ s := pyListMax_mem s hsne
      rw [hmap]
      refine List.mem_map.2 ⟨pyListMax s, hMm, ?_⟩
      rw [mul_comm (pyListMax s) 400, mul_div_assoc, div_self (ne_of_gt hM), mul_one]
    · intro z hz
      rw [hmap] at hz
      rcases List.mem_map.1 hz with ⟨w, hw, rfl⟩
      have h0w : 0 ≤ w := hnn w hw
      have hwM : w ≤ pyListMax s := le_pyListMax s w hw
      constructor
      · exact div_nonneg (mul_nonneg h0w (by norm_num)) (le_of_lt hM)
      · rw [div_le_iff₀ hM]
        calc w * 400 ≤ pyListMax s * 400 :=
              mul_le_mul_of_nonneg_right hwM (by norm_num)
          _ = 400 * pyListMax s := mul_comm _ _

/-- Witness for C3 at the concrete frame `s = [1, 2]` over ℚ. -/
theorem c3_bar_mapper_witness :
    (∀ v ∈ ([1, 2] : List ℚ), 0 ≤ v) ∧
    ((allZero ([1, 2] : List ℚ) = true →
        updateBarsHeights ([1, 2] : List ℚ) = List.replicate NUM_BARS 0)
      ∧ (allZero ([1, 2] : List ℚ) = false →
          updateBarsHeights ([1, 2] : List ℚ)
              = ([1, 2] : List ℚ).map (fun v => v * 400 / pyListMax ([1, 2] : List ℚ))
          ∧ (400 : ℚ) ∈ updateBarsHeights ([1, 2] : List ℚ)
          ∧ ∀ z ∈ updateBarsHeights ([1, 2] : List ℚ), 0 ≤ z ∧ z ≤ 400)) :=
  ⟨by decide, c3_bar_mapper ([1, 2] : List ℚ) (by decide)⟩

/-- C5: no exception ever propagates out of the audio callback: the
callback always yields `Except.ok` (its `try` body can raise only
`queue.Full`, which the handler catches), and the only error condition —
a full queue — is reduced to dropping that frame, leaving the state
unchanged. -/
theorem c5_callback_contained (st : ProgState) (samples : List ℝ) :
    audioCallbackE st samples = Except.ok (audioCallbackTrans st samples)
    ∧ (QUEUE_CAPACITY ≤ st.queue.length → audioCallbackTrans st samples = st) := by
  constructor
  · rw [audioCallbackE, audioCallbackTrans]
    by_cases hr : st.audio_running = false
    · rw [if_pos hr, if_pos hr]
    · rw [if_neg hr, if_neg hr]
      by_cases hq : st.queue.length < QUEUE_CAPACITY
      · rw [putNowaitE, if_pos hq, if_pos hq]
      · rw [putNowaitE, if_neg hq, if_neg hq]
  · intro hfull
    rw [audioCallbackTrans]
    by_cases hr : st.audio_running = false
    · rw [if_pos hr]
    · rw [if_neg hr, if_neg (by omega)]

/-- C6: `AudioStream.stop` is idempotent — a second call, or a call on a
never-started session, reaches the same observable end state (stream
closed, `is_running` false); the call never raises (close failures are
caught and turned into a log line), and the failure-free path closes the
stream. -/
theorem c6_stop_idempotent (st : AudioLife) (closeFails : Bool) :
    (∃ r, audioStopE closeFails st = Except.ok r)
    ∧ audioStop (audioStop st) = audioStop st
    ∧ (audioStop st).is_running = false
    ∧ streamClosedB (audioStop st) = true
    ∧ audioStopE false st = Except.ok (audioStop st, [])
    ∧ audioStop { stream := none, is_running := st.is_running }
        = { stream := none, is_running := false } := by
  refine ⟨?_, ?_, rfl, ?_, ?_, rfl⟩
  · match st with
    | ⟨none, b⟩ => exact ⟨_, rfl⟩
    | ⟨some s, b⟩ =>
      cases closeFails
      · exact ⟨_, rfl⟩
      · exact ⟨_, rfl⟩
  · match st with
    | ⟨none, b⟩ => rfl
    | ⟨some s, b⟩ => rfl
  · match st with
    | ⟨none, b⟩ => rfl
    | ⟨some s, b⟩ => rfl
  · match st with
    | ⟨none, b⟩ => rfl
    | ⟨some ⟨sa, sc⟩, b⟩ =>
      cases sa
      · rfl
      · rfl

/-- C7: an audio-callback invocation made after the capture session is
marked stopped returns immediately with the whole state (in particular
the queue contents) unchanged: no frame is pushed. -/
theorem c7_callback_after_stop (st : ProgState) (samples : List ℝ)
    (hstop : st.audio_running = false) :
    audioCallbackTrans st samples = st
    ∧ (audioCallbackTrans st samples).queue = st.queue := by
  have h : audioCallbackTrans st samples = st := by
    rw [audioCallbackTrans, if_pos hstop]
  exact ⟨h, by rw [h]⟩

/-- Witness for C7 at the concrete stopped state. -/
theorem c7_callback_after_stop_witness :
    stoppedProgState.audio_running = false
    ∧ audioCallbackTrans stoppedProgState [] = stoppedProgState
    ∧ (audioCallbackTrans stoppedProgState []).queue = stoppedProgState.queue :=
  ⟨rfl, (c7_callback_after_stop stoppedProgState [] rfl).1,
    (c7_callback_after_stop stoppedProgState [] rfl).2⟩

/-- C8 counterexample: the claim states that whenever a canvas operation
fails because the surface is torn down, the visualizer is marked stopped
and the condition is logged once.  On the all-zero frame `[0]` with the
canvas gone (`canvasOk = false`), `update_bars` catches the `TclError`
(lines 62-63) and merely returns: the visualizer is still running
(`is_running = true`) and nothing is logged. -/
theorem c8_counterexample :
    updateBarsE (⟨true⟩ : VisState) false ([0] : List ℚ)
      = Except.ok (⟨true⟩, ([] : List String)) := rfl

/-- C8 (amended): when a canvas operation fails mid-update, no exception
escapes `update_bars` and nothing is ever logged by it; if the failure
happens while drawing a non-all-zero frame the visualizer is marked
stopped, but if it happens while collapsing the bars of an all-zero frame
the method returns with the visualizer state unchanged (still running). -/
theorem c8_display_gone {α : Type} [LinearOrderedField α] (st : VisState)
    (canvasOk : Bool) (spectrum : List α) :
    (∃ r, updateBarsE st canvasOk spectrum = Except.ok r)
    ∧ (∀ r, updateBarsE st canvasOk spectrum = Except.ok r → r.2 = ([] : List String))
    ∧ (st.is_running = true → allZero spectrum = false →
        updateBarsE st false spectrum = Except.ok (⟨false⟩, []))
    ∧ (st.is_running = true → allZero spectrum = true →
        updateBarsE st false spectrum = Except.ok (st, [])) := by
  have hok : ∀ (b : Bool), ∃ r, updateBarsE st b spectrum = Except.ok r := by
    intro b
    rw [updateBarsE]
    by_cases hr : st.is_running = false
    · rw [if_pos hr]
      exact ⟨_, rfl⟩
    · rw [if_neg hr]
      by_cases hz : allZero spectrum
      · rw [if_pos hz]
        cases b
        · exact ⟨_, rfl⟩
        · exact ⟨_, rfl⟩
      · rw [if_neg hz]
        cases b
        · exact ⟨_, rfl⟩
        · exact ⟨_, rfl⟩
  refine ⟨hok canvasOk, ?_, ?_, ?_⟩
  · intro r hr
    rw [updateBarsE] at hr
    by_cases hrun : st.is_running = false
    · rw [if_pos hrun] at hr
      cases hr
      rfl
    · rw [if_neg hrun] at hr
      by_cases hz : allZero spectrum
      · rw [if_pos hz] at hr
        cases canvasOk
        · cases hr
          rfl
        · cases hr
          rfl
      · rw [if_neg hz] at hr
        cases canvasOk
        · cases hr
          rfl
        · cases hr
          rfl
  · intro hrun hz
    rw [updateBarsE, if_neg (by simp [hrun]), if_neg (by simp [hz])]
    rfl
  · intro hrun hz
    rw [updateBarsE, if_neg (by simp [hrun]), if_pos hz]
    rfl

theorem audioCallbackTrans_flags (st : ProgState) (s : List ℝ) :
    (audioCallbackTrans st s).app_running = st.app_running
    ∧ (audioCallbackTrans st s).vis_running = st.vis_running
    ∧ (audioCallbackTrans st s).audio_running = st.audio_running := by
  rw [audioCallbackTrans]
  split
  · exact ⟨rfl, rfl, rfl⟩
  · split
    · exact ⟨rfl, rfl, rfl⟩
    · exact ⟨rfl, rfl, rfl⟩

theorem processQueueTrans_flags (st : ProgState) (canvasOk : Bool) :
    (processQueueTrans st canvasOk).app_running = st.app_running
    ∧ (processQueueTrans st canvasOk).audio_running = st.audio_running
    ∧ ((processQueueTrans st canvasOk).vis_running = true → st.vis_running = true) := by
  rw [processQueueTrans]
  split
  · exact ⟨rfl, rfl, fun h => h⟩
  · exact ⟨rfl, rfl, fun h => drainLoopVis_mono canvasOk st.queue st.vis_running h⟩

/-- C9: the running/stopped flags are monotone.  All three `is_running`
flags start `True` in `Application.__init__`; no operation of the program
(start, audio callback, `process_queue` tick, `Application.stop`) ever
turns a flag from `False` back to `True`; `Application.stop` turns all
three off; and once stopped, the audio callback and the `process_queue`
tick return immediately with the state unchanged. -/
theorem c9_flag_monotone :
    (initState.app_running = true ∧ initState.vis_running = true
      ∧ initState.audio_running = true)
    ∧ (∀ (op : Op) (st : ProgState),
        ((step op st).app_running = true → st.app_running = true)
        ∧ ((step op st).vis_running = true → st.vis_running = true)
        ∧ ((step op st).audio_running = true → st.audio_running = true))
    ∧ (∀ st : ProgState, (step Op.stop st).app_running = false
        ∧ (step Op.stop st).vis_running = false
        ∧ (step Op.stop st).audio_running = false)
    ∧ (∀ (st : ProgState) (samples : List ℝ), st.audio_running = false →
        step (Op.callback samples) st = st)
    ∧ (∀ (st : ProgState) (canvasOk : Bool), st.app_running = false →
        step (Op.tick canvasOk) st = st) := by
  refine ⟨⟨rfl, rfl, rfl⟩, ?_, ?_, ?_, ?_⟩
  · intro op st
    cases op with
    | start => exact ⟨fun h => h, fun h => h, fun h => h⟩
    | callback s =>
      refine ⟨fun h => ?_, fun h => ?_, fun h => ?_⟩
      · rw [← (audioCallbackTrans_flags st s).1]
        exact h
      · rw [← (audioCallbackTrans_flags st s).2.1]
        exact h
      · rw [← (audioCallbackTrans_flags st s).2.2]
        exact h
    | tick canvasOk =>
      refine ⟨fun h => ?_, fun h => ?_, fun h => ?_⟩
      · rw [← (processQueueTrans_flags st canvasOk).1]
        exact h
      · exact (processQueueTrans_flags st canvasOk).2.2 h
      · rw [← (processQueueTrans_flags st canvasOk).2.1]
        exact h
    | stop =>
      exact ⟨fun h => Bool.noConfusion h, fun h => Bool.noConfusion h,
        fun h => Bool.noConfusion h⟩
  · intro st
    exact ⟨rfl, rfl, rfl⟩
  · intro st samples h
    show audioCallbackTrans st samples = st
    rw [audioCallbackTrans, if_pos h]
  · intro st canvasOk h
    show processQueueTrans st canvasOk = st
    rw [processQueueTrans, if_pos h]

/-- Witness for C5 at the concrete full-queue state and an empty sample
buffer. -/
theorem c5_callback_contained_witness :
    audioCallbackE fullQueueState [] = Except.ok (audioCallbackTrans fullQueueState [])
    ∧ (QUEUE_CAPACITY ≤ fullQueueState.queue.length →
        audioCallbackTrans fullQueueState [] = fullQueueState) :=
  c5_callback_contained fullQueueState []

/-- Witness for C6 at a concrete started session with an active stream. -/
theorem c6_stop_idempotent_witness :
    (∃ r, audioStopE true startedAudioLife = Except.ok r)
    ∧ audioStop (audioStop startedAudioLife) = audioStop startedAudioLife
    ∧ (audioStop startedAudioLife).is_running = false
    ∧ streamClosedB (audioStop startedAudioLife) = true
    ∧ audioStopE false startedAudioLife = Except.ok (audioStop startedAudioLife, [])
    ∧ audioStop { stream := none, is_running := startedAudioLife.is_running }
        = { stream := none, is_running := false } :=
  c6_stop_idempotent startedAudioLife true

/-- Witness for the amended C8 at the concrete frame `[1]` over ℚ with
the canvas gone. -/
theorem c8_display_gone_witness :
    (∃ r, updateBarsE (⟨true⟩ : VisState) false ([1] : List ℚ) = Except.ok r)
    ∧ (∀ r, updateBarsE (⟨true⟩ : VisState) false ([1] : List ℚ) = Except.ok r →
        r.2 = ([] : List String))
    ∧ ((⟨true⟩ : VisState).is_running = true → allZero ([1] : List ℚ) = false →
        updateBarsE (⟨true⟩ : VisState) false ([1] : List ℚ) = Except.ok (⟨false⟩, []))
    ∧ ((⟨true⟩ : VisState).is_running = true → allZero ([1] : List ℚ) = true →
        updateBarsE (⟨true⟩ : VisState) false ([1] : List ℚ) = Except.ok (⟨true⟩, [])) :=
  c8_display_gone (⟨true⟩ : VisState) false ([1] : List ℚ)

/-- Witness for C10 at the concrete sample buffer `[1, 2, 3]`. -/
theorem c10_output_shape_witness :
    (audioCallbackSpectrum [1, 2, 3]).length = NUM_BARS
    ∧ audioCallbackSpectrum [1, 2, 3]
        = audioCallbackSpectrum (([1, 2, 3] : List ℝ).take WINDOW_SIZE) :=
  c10_output_shape [1, 2, 3]

end Spectrum
